import Mathlib

/-!
Verification of the agent lifecycle and task-dispatch protocol of the
baihu-panel controller.

The shallow embedding below translates:
  * the `Agent` data model from `src/internal/models/agent.go`,
  * the gateway controllers (`Heartbeat`, `GetTasks`, `ReportResult`,
    `CheckStatus`, `getAgentToken`) from
    `src/internal/controllers/agent_controller.go`,
  * the service layer (`AgentService`) and the execution ledger, whose Go
    sources are not part of this source snapshot; those definitions are
    modelled from the specification and are marked `Modelled from the spec:`
    in their doc comments.

Machine integers (GORM `uint` ids, unix timestamps) are modelled as `Nat`;
overflow plays no role in any property below.  Go strings are modelled as
Lean `String`, except inside the `Authorization`-header parser where the
character-level model `List Char` mirrors `strings.SplitN(auth, " ", 2)`.
-/

namespace Baihu

/-- Agent record, translated from `struct Agent` in
`src/internal/models/agent.go`.  `LocalTime` values are modelled as `Nat`
(unix seconds); the nullable `LastSeen *LocalTime` becomes `Option Nat`.
GORM bookkeeping fields (`CreatedAt`, `UpdatedAt`, `DeletedAt`) are not
needed by any claim and are omitted. -/
structure Agent where
  id : Nat
  name : String
  token : String
  description : String
  status : String
  lastSeen : Option Nat
  ip : String
  version : String
  buildTime : String
  hostname : String
  os : String
  arch : String
  forceUpdate : Bool
  enabled : Bool
  deriving Repr, DecidableEq

/-- Registry state: the table of agent rows plus the next auto-increment
primary key. -/
structure RegState where
  agents : List Agent
  nextId : Nat
  deriving Repr, DecidableEq

def RegState.init : RegState := ⟨[], 1⟩

/-- Agent task result payload, translated from `struct AgentTaskResult` in
`src/internal/models/agent.go`. -/
structure AgentTaskResult where
  taskID : Nat
  agentID : Nat
  command : String
  output : String
  status : String
  duration : Int
  exitCode : Int
  startTime : Int
  endTime : Int
  deriving Repr, DecidableEq

/-! ### Authorization-header parsing (from the source)

`getAgentToken` in `src/internal/controllers/agent_controller.go`:

    auth := ctx.GetHeader("Authorization")
    if auth == "" { return "" }
    parts := strings.SplitN(auth, " ", 2)
    if len(parts) == 2 && parts[0] == "Bearer" { return parts[1] }
    return auth
-/

/-- Character-level model of Go `strings.SplitN(s, " ", 2)`: the part before
the first space, and — when a space exists — everything after it. -/
def splitN2 : List Char → List Char × Option (List Char)
  | [] => ([], none)
  | c :: rest =>
    if c = ' ' then ([], some rest)
    else
      let p := splitN2 rest
      (c :: p.1, p.2)

/-- `getAgentToken` on the character level, translated from
`AgentController.getAgentToken` in `src/internal/controllers/agent_controller.go`. -/
def getTokenChars (auth : List Char) : List Char :=
  if auth = [] then []
  else
    match splitN2 auth with
    | (b, some t) => if b = "Bearer".toList then t else auth
    | (_, none) => auth

/-- String wrapper for `getTokenChars`. -/
def getAgentToken (auth : String) : String :=
  ⟨getTokenChars auth.toList⟩


/-! ### Service layer (modelled from the spec)

The Go sources of `AgentService` (package `baihu/internal/services`) are not
part of this source snapshot; only the controllers that call it are.  The
definitions in this section are therefore modelled from the specification
(section 4.1 AgentRegistry, 4.2 RegistrationCodeIssuer). -/

/-- Modelled from the spec: `AgentService.GetByToken` — resolve a bearer
token to an agent record (`nil` when no row matches). -/
def getByToken (agents : List Agent) (tok : String) : Option Agent :=
  agents.find? (fun a => a.token == tok)

/-- Look up an agent row by primary key. -/
def findById (agents : List Agent) (id : Nat) : Option Agent :=
  agents.find? (fun a => a.id == id)

/-- Replace every row with the given primary key by `a'`. -/
def replaceById (agents : List Agent) (id : Nat) (a' : Agent) : List Agent :=
  agents.map (fun a => if a.id = id then a' else a)

/-- Modelled from the spec: the field update a successful
`AgentService.Heartbeat` applies to the matched agent — "sets status=online,
last-seen=now, ip=ip, and overwrites version/buildTime/hostname/os/arch only
for non-empty incoming values". -/
def heartbeatUpdate (a : Agent) (now : Nat)
    (ip v bt hn osv ar : String) : Agent :=
  { a with
    status := "online"
    lastSeen := some now
    ip := ip
    version := if v = "" then a.version else v
    buildTime := if bt = "" then a.buildTime else bt
    hostname := if hn = "" then a.hostname else hn
    os := if osv = "" then a.os else osv
    arch := if ar = "" then a.arch else ar }

/-- Typed service-level failures (spec section 7). -/
inductive SvcErr where
  | unauthorized
  | forbidden
  | notFound
  | invalidState
  deriving Repr, DecidableEq

/-- Modelled from the spec: `AgentService.Heartbeat(token, ip, version,
buildTime, hostname, os, arch)` — "looks up agent by token; fails with
`Unauthorized` if token unknown; fails with `Forbidden` if enabled=false. On
success sets status=online, last-seen=now, ip=ip, and overwrites
version/buildTime/hostname/os/arch only for non-empty incoming values". -/
def serviceHeartbeat (s : RegState) (tok : String) (now : Nat)
    (ip v bt hn osv ar : String) : Except SvcErr (Agent × RegState) :=
  match getByToken s.agents tok with
  | none => .error .unauthorized
  | some a =>
    if a.enabled then
      let a' := heartbeatUpdate a now ip v bt hn osv ar
      .ok (a', { s with agents := replaceById s.agents a.id a' })
    else
      .error .forbidden

/-- Modelled from the spec: `AgentService.ClearForceUpdate(id)` — clears the
agent's force-update flag. -/
def clearForceUpdateSvc (s : RegState) (id : Nat) : RegState :=
  match findById s.agents id with
  | none => s
  | some a => { s with agents := replaceById s.agents id ({ a with forceUpdate := false }) }

/-- Modelled from the spec: `AgentService.SetForceUpdate(id)` — sets the
agent's force-update flag. -/
def setForceUpdateSvc (s : RegState) (id : Nat) : RegState :=
  match findById s.agents id with
  | none => s
  | some a => { s with agents := replaceById s.agents id ({ a with forceUpdate := true }) }

/-- Modelled from the spec: `AgentService.CheckPendingAgent(name, ip)` —
"looks up by (name, ip) pair; fails with `NotFound` if no match; refreshes
last-seen; returns current status". -/
def checkPendingAgent (s : RegState) (name ip : String) (now : Nat) :
    Except SvcErr (Agent × RegState) :=
  match s.agents.find? (fun a => a.name == name && a.ip == ip) with
  | none => .error .notFound
  | some a =>
    let a' := { a with lastSeen := some now }
    .ok (a', { s with agents := replaceById s.agents a.id a' })

/-- Modelled from the spec: `AgentService.Register(name, hostname, version,
ip)` — "if a pending agent with the same name exists, refresh its
hostname/version/ip/last-seen in place and return it; otherwise create new
record in pending, no token". -/
def serviceRegister (s : RegState) (name hostname version ip : String)
    (now : Nat) : Agent × RegState :=
  match s.agents.find? (fun a => a.name == name && a.status == "pending") with
  | some a =>
    let a' := { a with hostname := hostname, version := version, ip := ip,
                       lastSeen := some now }
    (a', { s with agents := replaceById s.agents a.id a' })
  | none =>
    let a : Agent :=
      { id := s.nextId, name := name, token := "", description := ""
        status := "pending", lastSeen := some now, ip := ip
        version := version, buildTime := "", hostname := hostname
        os := "", arch := "", forceUpdate := false, enabled := true }
    (a, ⟨s.agents ++ [a], s.nextId + 1⟩)

/-- Modelled from the spec: `AgentService.Approve(id)` — "requires current
status == pending; fails with `InvalidState` otherwise; fails with `NotFound`
if id unknown. On success: generate a cryptographically random 256-bit token
(hex-encoded), set status=online, set last-seen=now."  The random token is
supplied by the caller as `tok`. -/
def serviceApprove (s : RegState) (id : Nat) (tok : String) (now : Nat) :
    Except SvcErr (Agent × RegState) :=
  match findById s.agents id with
  | none => .error .notFound
  | some a =>
    if a.status = "pending" then
      let a' := { a with token := tok, status := "online", lastSeen := some now }
      .ok (a', { s with agents := replaceById s.agents id a' })
    else
      .error .invalidState

/-- Modelled from the spec: `AgentService.Reject(id)` — "hard-deletes the
pending record. No state check." -/
def serviceReject (s : RegState) (id : Nat) : RegState :=
  { s with agents := s.agents.filter (fun a => a.id ≠ id) }

/-- Modelled from the spec: `AgentService.Update(id, name, description,
enabled)` — "pure attribute mutation". -/
def serviceUpdate (s : RegState) (id : Nat) (name descr : String)
    (enabled : Bool) : RegState :=
  match findById s.agents id with
  | none => s
  | some a =>
    let a' : Agent := { a with name := name, description := descr, enabled := enabled }
    { s with agents := replaceById s.agents id a' }

/-- Modelled from the spec: `AgentService.RegenerateToken(id)` — "issues a
new random token unconditionally, invalidating the old one immediately".
The random token is supplied by the caller as `tok`. -/
def serviceRegenerateToken (s : RegState) (id : Nat) (tok : String) :
    Except SvcErr RegState :=
  match findById s.agents id with
  | none => .error .notFound
  | some a =>
    .ok { s with agents := replaceById s.agents id ({ a with token := tok }) }

/-- Modelled from the spec: successful registration-code redemption (spec
section 4.2) — "creates an Agent with status=online and a freshly issued
token in one step".  Registration-code bookkeeping (used-count, expiry) only
gates whether redemption succeeds; a failed redemption leaves the registry
untouched, so it is irrelevant to registry invariants and omitted here.  The
fresh token is supplied by the caller as `tok`. -/
def serviceRedeem (s : RegState) (tok name hostname version ip : String)
    (now : Nat) : Agent × RegState :=
  let a : Agent :=
    { id := s.nextId, name := name, token := tok, description := ""
      status := "online", lastSeen := some now, ip := ip
      version := version, buildTime := "", hostname := hostname
      os := "", arch := "", forceUpdate := false, enabled := true }
  (a, ⟨s.agents ++ [a], s.nextId + 1⟩)

/-- Modelled from the spec: `AgentService.MarkStaleOffline()` — "transitions
every agent with status=online AND last-seen older than a liveness window
(fixed at 2 minutes) to offline".  The window is 120 seconds; a row whose
last-seen is NULL has no timestamp older than the threshold and is not
matched. -/
def markStaleOffline (now : Nat) : List Agent → List Agent
  | [] => []
  | a :: rest =>
    let a' :=
      if a.status = "online" then
        match a.lastSeen with
        | some t => if t + 120 < now then { a with status := "offline" } else a
        | none => a
      else a
    a' :: markStaleOffline now rest

/-! ### Gateway controllers (from the source)

Translated from `src/internal/controllers/agent_controller.go`.  Each
controller consumes the raw `Authorization` header, the JSON request body
and the caller ip, and produces an HTTP-level outcome together with the
successor state.  `GetLatestVersion` reads an external sidecar file; its
value is passed in as the parameter `latestVersion`. -/

/-- HTTP-level failure classes produced by `utils.Unauthorized`,
`utils.Forbidden`, `utils.NotFound`, `utils.BadRequest`, `utils.ServerError`. -/
inductive ApiErr where
  | unauthorized
  | forbidden
  | notFound
  | badRequest
  | serverError
  deriving Repr, DecidableEq

instance {ε α : Type} [DecidableEq ε] [DecidableEq α] : DecidableEq (Except ε α) := fun a b =>
  match a, b with
  | .error e, .error f => decidable_of_iff (e = f) (by simp)
  | .error _, .ok _ => isFalse (by simp)
  | .ok _, .error _ => isFalse (by simp)
  | .ok x, .ok y => decidable_of_iff (x = y) (by simp)

/-- Heartbeat request body, translated from the anonymous struct in
`AgentController.Heartbeat`. -/
structure HeartbeatReq where
  version : String
  buildTime : String
  hostname : String
  os : String
  arch : String
  autoUpdate : Bool
  deriving Repr, DecidableEq

/-- Heartbeat response body: the `gin.H` literal returned by
`AgentController.Heartbeat` has exactly these five fields. -/
structure HeartbeatResp where
  agent_id : Nat
  name : String
  need_update : Bool
  force_update : Bool
  latest_version : String
  deriving Repr, DecidableEq

/-- Outcome of one `Heartbeat` request: the HTTP result, the successor
registry state, and whether `ClearForceUpdate` was invoked. -/
structure HeartbeatOutcome where
  result : Except ApiErr HeartbeatResp
  state : RegState
  clearedForceUpdate : Bool
  deriving Repr

/-- `AgentController.Heartbeat`, translated from
`src/internal/controllers/agent_controller.go` lines 190-231.  Any error
returned by `agentService.Heartbeat` is mapped to `utils.Unauthorized`
(line 210 of the source). -/
def heartbeatController (s : RegState) (latestVersion : String)
    (authHeader : String) (req : HeartbeatReq) (clientIP : String)
    (now : Nat) : HeartbeatOutcome :=
  let token := getAgentToken authHeader
  if token = "" then ⟨.error .unauthorized, s, false⟩
  else
    match serviceHeartbeat s token now clientIP req.version req.buildTime
        req.hostname req.os req.arch with
    | .error _ => ⟨.error .unauthorized, s, false⟩
    | .ok (agent, s') =>
      let needUpdate := latestVersion ≠ "" && req.version ≠ "" && req.version ≠ latestVersion
      let forceUpdate := agent.forceUpdate
      let doClear := forceUpdate && needUpdate
      let s'' := if doClear then clearForceUpdateSvc s' agent.id else s'
      ⟨.ok ⟨agent.id, agent.name, needUpdate, forceUpdate, latestVersion⟩, s'', doClear⟩

/-- `AgentController.GetTasks`, translated from
`src/internal/controllers/agent_controller.go` lines 234-257.  The task list
itself comes from the external `TaskCatalog`; only the authentication
outcome and the identity the tasks are fetched for are modelled. -/
def getTasksController (s : RegState) (authHeader : String) :
    Except ApiErr Nat :=
  let token := getAgentToken authHeader
  if token = "" then .error .unauthorized
  else
    match getByToken s.agents token with
    | none => .error .unauthorized
    | some agent =>
      if agent.enabled then .ok agent.id
      else .error .forbidden

/-- `AgentController.ReportResult`, translated from
`src/internal/controllers/agent_controller.go` lines 260-292.  The persisted
ledger is modelled as the list of stored result rows; the service call
`agentService.ReportResult` (spec: `ExecutionLedger.RecordAgentResult`)
appends the stamped row. -/
def reportResultController (s : RegState) (ledger : List AgentTaskResult)
    (authHeader : String) (body : Option AgentTaskResult) :
    Except ApiErr Unit × List AgentTaskResult :=
  let token := getAgentToken authHeader
  if token = "" then (.error .unauthorized, ledger)
  else
    match getByToken s.agents token with
    | none => (.error .unauthorized, ledger)
    | some agent =>
      if agent.enabled then
        match body with
        | none => (.error .badRequest, ledger)
        | some result =>
          let result' := { result with agentID := agent.id }
          (.ok (), ledger ++ [result'])
      else (.error .forbidden, ledger)

/-- CheckStatus response body: `agent_id`, `status`, and the token field,
which is present only under the condition on line 182 of the source. -/
structure CheckStatusResp where
  agent_id : Nat
  status : String
  token : Option String
  deriving Repr, DecidableEq

/-- `AgentController.CheckStatus`, translated from
`src/internal/controllers/agent_controller.go` lines 160-187. -/
def checkStatusController (s : RegState) (name clientIP : String)
    (now : Nat) : Except ApiErr CheckStatusResp × RegState :=
  match checkPendingAgent s name clientIP now with
  | .error _ => (.error .notFound, s)
  | .ok (agent, s') =>
    let tokField := if agent.status ≠ "pending" && agent.token ≠ "" then some agent.token else none
    (.ok ⟨agent.id, agent.status, tokField⟩, s')

/-! ### Operation traces (for the registry invariant)

Core operations named by the invariant claim.  `Approve`, registration-code
redemption and `RegenerateToken` consume a freshly generated random token;
the generated value is carried inside the operation. -/

/-- One core operation applied to the registry. -/
inductive Op where
  | register (name hostname version ip : String) (now : Nat)
  | approve (id : Nat) (tok : String) (now : Nat)
  | reject (id : Nat)
  | update (id : Nat) (name descr : String) (enabled : Bool)
  | heartbeat (authHeader : String) (req : HeartbeatReq) (clientIP latestVersion : String) (now : Nat)
  | redeem (tok name hostname version ip : String) (now : Nat)
  | regenerateToken (id : Nat) (tok : String)
  deriving Repr, DecidableEq

/-- Apply one operation; a failing operation leaves the state unchanged.
`heartbeat` goes through the gateway controller (which also performs the
`ClearForceUpdate` side effect); the management operations call the service
layer directly, as their controllers do after parsing the id. -/
def applyOp (s : RegState) : Op → RegState
  | .register name hostname version ip now => (serviceRegister s name hostname version ip now).2
  | .approve id tok now =>
    match serviceApprove s id tok now with
    | .ok (_, s') => s'
    | .error _ => s
  | .reject id => serviceReject s id
  | .update id name descr enabled => serviceUpdate s id name descr enabled
  | .heartbeat authHeader req clientIP latestVersion now =>
    (heartbeatController s latestVersion authHeader req clientIP now).state
  | .redeem tok name hostname version ip now => (serviceRedeem s tok name hostname version ip now).2
  | .regenerateToken id tok =>
    match serviceRegenerateToken s id tok with
    | .ok s' => s'
    | .error _ => s

/-- Apply a list of operations in order. -/
def applyOps (s : RegState) (ops : List Op) : RegState :=
  ops.foldl applyOp s

/-- The spec's registry invariant: "token is empty iff status == pending". -/
def agentInvariant (s : RegState) : Prop :=
  ∀ a ∈ s.agents, a.token = "" ↔ a.status = "pending"

instance (s : RegState) : Decidable (agentInvariant s) :=
  inferInstanceAs (Decidable (∀ a ∈ s.agents, _ ↔ _))

/-- Tokens generated for an operation are never the empty string: `Approve`
and redemption issue 64-hex-char tokens and `RegenerateToken` a fresh
random token. -/
def wfOp : Op → Bool
  | .approve _ tok _ => tok != ""
  | .redeem tok _ _ _ _ _ => tok != ""
  | .regenerateToken _ tok => tok != ""
  | _ => true

/-- `RegenerateToken` is not aimed at an agent that is currently pending. -/
def regenSafe (s : RegState) : Op → Bool
  | .regenerateToken id _ => s.agents.all (fun a => !(a.id == id) || !(a.status == "pending"))
  | _ => true

/-- A trace is safe when every operation is well formed and
`RegenerateToken` is never applied to an agent that is pending at that
moment. -/
def safeTrace : RegState → List Op → Bool
  | _, [] => true
  | s, op :: ops => wfOp op && regenSafe s op && safeTrace (applyOp s op) ops

/-! ### Retention (modelled from the spec)

`ExecutionLedger.ApplyRetention` for `kind=count` (spec section 4.4): "For
kind=count, deletes every record whose id is less than the id of the
(keep)-th most recent record (i.e., keeps exactly the most recent N by
descending id, deletes the rest)".  A record is represented by its primary
key; deletion is by id, so no other field matters. -/

/-- Modelled from the spec: `ApplyRetention` with a count policy.  Sort ids
descending, locate the id of the `keep`-th most recent record, and delete
every record with a smaller id; a no-op when `keep = 0` or when fewer than
`keep` records exist. -/
def applyRetentionCount (keep : Nat) (ids : List Nat) : List Nat :=
  if keep = 0 then ids
  else
    let sorted := ids.insertionSort (fun a b => b ≤ a)
    match sorted.get? (keep - 1) with
    | none => ids
    | some nth => ids.filter (fun id => ¬ id < nth)


/-! ### Concrete fixtures used by witnesses and counterexamples -/

/-- A concrete approved, enabled agent. -/
def agentW : Agent :=
  { id := 1, name := "w1", token := "tok", description := ""
    status := "online", lastSeen := some 0, ip := "10.0.0.1"
    version := "1.0", buildTime := "", hostname := "h", os := "linux"
    arch := "amd64", forceUpdate := false, enabled := true }

/-- A registry holding just `agentW`. -/
def stateW : RegState := ⟨[agentW], 2⟩

/-- A concrete approved agent that has been disabled by the operator. -/
def agentDis : Agent := { agentW with id := 2, token := "distok", enabled := false }

/-- A registry holding just `agentDis`. -/
def stateDis : RegState := ⟨[agentDis], 3⟩

/-- A concrete heartbeat request body reporting version 1.0. -/
def reqW : HeartbeatReq := ⟨"1.0", "", "h", "linux", "amd64", false⟩

/-- A concrete heartbeat request body with all optional fields empty. -/
def reqEmpty : HeartbeatReq := ⟨"", "", "", "", "", false⟩

/-- A concrete agent-reported task result. -/
def resultW : AgentTaskResult :=
  ⟨7, 99, "echo hi", "hi", "success", 12, 0, 1000, 1001⟩

/-! ### Lemmas about header parsing -/

lemma splitN2_no_space {l : List Char} (h : ' ' ∉ l) : splitN2 l = (l, none) := by
  induction l with
  | nil => rfl
  | cons c rest ih =>
    have hc : ¬ c = ' ' := fun hc => h (hc ▸ List.mem_cons_self c rest)
    have hr : ' ' ∉ rest := fun hm => h (List.mem_cons_of_mem c hm)
    simp [splitN2, hc, ih hr]

lemma splitN2_append {a : List Char} (b : List Char) (h : ' ' ∉ a) :
    splitN2 (a ++ ' ' :: b) = (a, some b) := by
  induction a with
  | nil => simp [splitN2]
  | cons c rest ih =>
    have hc : ¬ c = ' ' := fun hc => h (hc ▸ List.mem_cons_self c rest)
    have hr : ' ' ∉ rest := fun hm => h (List.mem_cons_of_mem c hm)
    simp [splitN2, hc, ih hr]

lemma getTokenChars_split {a : List Char} (t : List Char) (h : ' ' ∉ a) :
    getTokenChars (a ++ ' ' :: t)
      = if a = "Bearer".toList then t else a ++ ' ' :: t := by
  have hne : a ++ ' ' :: t ≠ [] := by cases a <;> simp
  simp [getTokenChars, hne, splitN2_append t h]

lemma getTokenChars_verbatim {l : List Char} (h : ' ' ∉ l) :
    getTokenChars l = l := by
  cases l with
  | nil => rfl
  | cons c rest =>
    simp [getTokenChars, splitN2_no_space h]

lemma toList_append_space (a b : String) :
    (a ++ " " ++ b).toList = a.toList ++ ' ' :: b.toList := by
  show (a ++ " " ++ b).data = a.data ++ ' ' :: b.data
  simp [String.data_append]

lemma toList_inj {a b : String} (h : a.toList = b.toList) : a = b :=
  congrArg String.mk h

/-- C10: the bearer token is extracted from the `Authorization` header by
splitting on the first space: a `Bearer `-prefixed header yields everything
after the first space; any other non-empty header value is used verbatim;
an absent or empty header makes Heartbeat, GetTasks and ReportResult fail
with Unauthorized before any agent lookup or state change. -/
theorem getAgentToken_correct :
    (∀ t : String, getAgentToken ("Bearer " ++ t) = t) ∧
    (∀ auth : String, auth ≠ "" → ' ' ∉ auth.toList → getAgentToken auth = auth) ∧
    (∀ a b : String, ' ' ∉ a.toList → a ≠ "Bearer" →
      getAgentToken (a ++ " " ++ b) = a ++ " " ++ b) ∧
    getAgentToken "" = "" ∧
    (∀ s latestVersion header req ip now, getAgentToken header = "" →
      heartbeatController s latestVersion header req ip now
        = ⟨.error .unauthorized, s, false⟩) ∧
    (∀ s header, getAgentToken header = "" →
      getTasksController s header = .error .unauthorized) ∧
    (∀ s ledger header body, getAgentToken header = "" →
      reportResultController s ledger header body = (.error .unauthorized, ledger)) := by
  have hsp : ' ' ∉ "Bearer".toList := by decide
  refine ⟨?_, ?_, ?_, by decide, ?_, ?_, ?_⟩
  · intro t
    apply toList_inj
    show getTokenChars ("Bearer " ++ t).toList = t.toList
    have h1 : ("Bearer " ++ t).toList = "Bearer".toList ++ ' ' :: t.toList := by
      show ("Bearer " ++ t).data = "Bearer".data ++ ' ' :: t.data
      rw [String.data_append]
      have hb : "Bearer ".data = "Bearer".data ++ [' '] := by decide
      rw [hb, List.append_assoc, List.singleton_append]
    rw [h1, getTokenChars_split _ hsp, if_pos rfl]
  · intro auth hne hsp'
    apply toList_inj
    show getTokenChars auth.toList = auth.toList
    exact getTokenChars_verbatim hsp'
  · intro a b ha hne
    apply toList_inj
    show getTokenChars (a ++ " " ++ b).toList = (a ++ " " ++ b).toList
    rw [toList_append_space, getTokenChars_split _ ha, if_neg]
    intro hEq
    exact hne (toList_inj hEq)
  · intro s latestVersion header req ip now h
    simp [heartbeatController, h]
  · intro s header h
    simp [getTasksController, h]
  · intro s ledger header body h
    simp [reportResultController, h]

/-- Witness for C10 at concrete inputs. -/
theorem getAgentToken_correct_witness :
    getAgentToken "Bearer tok123" = "tok123" ∧
    getAgentToken "rawtoken" = "rawtoken" ∧
    getAgentToken "Basic xyz" = "Basic xyz" ∧
    getTasksController ⟨[], 1⟩ "" = .error .unauthorized := by
  refine ⟨?_, ?_, ?_, ?_⟩
  · have h := getAgentToken_correct.1 "tok123"
    have he : ("Bearer " ++ "tok123") = "Bearer tok123" := by decide
    rw [he] at h
    exact h
  · exact getAgentToken_correct.2.1 "rawtoken" (by decide) (by decide)
  · have h := getAgentToken_correct.2.2.1 "Basic" "xyz" (by decide) (by decide)
    have he : ("Basic" ++ " " ++ "xyz") = "Basic xyz" := by decide
    rw [he] at h
    exact h
  · exact getAgentToken_correct.2.2.2.2.2.1 ⟨[], 1⟩ "" (by decide)

/-! ### Lemmas about row lookup and replacement -/

lemma getByToken_mem {agents : List Agent} {tok : String} {a : Agent}
    (h : getByToken agents tok = some a) : a ∈ agents ∧ a.token = tok := by
  unfold getByToken at h
  refine ⟨List.mem_of_find?_eq_some h, ?_⟩
  have := List.find?_some h
  simpa using this

lemma findById_replaceById {agents : List Agent} {id : Nat} {a' : Agent}
    (h : ∃ a ∈ agents, a.id = id) (hid : a'.id = id) :
    findById (replaceById agents id a') id = some a' := by
  induction agents with
  | nil => simp at h
  | cons b rest ih =>
    by_cases hb : b.id = id
    · simp [findById, replaceById, List.find?_cons, hb, hid]
    · obtain ⟨a, ha, haid⟩ := h
      rcases List.mem_cons.mp ha with hEq | hmem
      · exact absurd (hEq ▸ haid) hb
      · have := ih ⟨a, hmem, haid⟩
        simpa [findById, replaceById, List.find?_cons, hb] using this

@[simp] lemma heartbeatUpdate_id (a : Agent) (now : Nat) (ip v bt hn osv ar : String) :
    (heartbeatUpdate a now ip v bt hn osv ar).id = a.id := rfl

@[simp] lemma heartbeatUpdate_name (a : Agent) (now : Nat) (ip v bt hn osv ar : String) :
    (heartbeatUpdate a now ip v bt hn osv ar).name = a.name := rfl

@[simp] lemma heartbeatUpdate_token (a : Agent) (now : Nat) (ip v bt hn osv ar : String) :
    (heartbeatUpdate a now ip v bt hn osv ar).token = a.token := rfl

@[simp] lemma heartbeatUpdate_forceUpdate (a : Agent) (now : Nat) (ip v bt hn osv ar : String) :
    (heartbeatUpdate a now ip v bt hn osv ar).forceUpdate = a.forceUpdate := rfl

@[simp] lemma heartbeatUpdate_enabled (a : Agent) (now : Nat) (ip v bt hn osv ar : String) :
    (heartbeatUpdate a now ip v bt hn osv ar).enabled = a.enabled := rfl

@[simp] lemma heartbeatUpdate_status (a : Agent) (now : Nat) (ip v bt hn osv ar : String) :
    (heartbeatUpdate a now ip v bt hn osv ar).status = "online" := rfl

/-- Mere unfolding of the success path of `AgentController.Heartbeat`: when
the extracted token is non-empty, resolves to agent `a`, and `a` is enabled,
the controller produces this outcome. -/
lemma heartbeatController_ok {s : RegState} {latest header : String}
    {req : HeartbeatReq} {ip : String} {now : Nat} {a : Agent}
    (htok : ¬ getAgentToken header = "")
    (hfind : getByToken s.agents (getAgentToken header) = some a)
    (hen : a.enabled = true) :
    heartbeatController s latest header req ip now =
      ⟨.ok ⟨a.id, a.name,
            (latest ≠ "" && req.version ≠ "" && req.version ≠ latest),
            a.forceUpdate, latest⟩,
       (if a.forceUpdate && (latest ≠ "" && req.version ≠ "" && req.version ≠ latest) then
          clearForceUpdateSvc
            ⟨replaceById s.agents a.id
               (heartbeatUpdate a now ip req.version req.buildTime req.hostname req.os req.arch),
             s.nextId⟩ a.id
        else
          ⟨replaceById s.agents a.id
             (heartbeatUpdate a now ip req.version req.buildTime req.hostname req.os req.arch),
           s.nextId⟩),
       a.forceUpdate && (latest ≠ "" && req.version ≠ "" && req.version ≠ latest)⟩ := by
  simp [heartbeatController, serviceHeartbeat, htok, hfind, hen]

/-- C3: a successful Heartbeat answers with exactly the fields `agent_id`,
`name`, `need_update`, `force_update`, `latest_version`, and `need_update`
is true iff the published latest version is non-empty, the reported version
is non-empty, and the two differ. -/
theorem heartbeat_response_correct (s : RegState) (latest header : String)
    (req : HeartbeatReq) (ip : String) (now : Nat) (a : Agent)
    (htok : ¬ getAgentToken header = "")
    (hfind : getByToken s.agents (getAgentToken header) = some a)
    (hen : a.enabled = true) :
    ∃ resp : HeartbeatResp,
      (heartbeatController s latest header req ip now).result = .ok resp ∧
      resp.agent_id = a.id ∧
      resp.name = a.name ∧
      (resp.need_update = true ↔ latest ≠ "" ∧ req.version ≠ "" ∧ req.version ≠ latest) ∧
      resp.force_update = a.forceUpdate ∧
      resp.latest_version = latest := by
  rw [heartbeatController_ok htok hfind hen]
  refine ⟨_, rfl, rfl, rfl, ?_, rfl, rfl⟩
  simp [Bool.and_eq_true, and_assoc]

/-- Witness for C3 at a concrete state: one enabled online agent whose
reported version 1.0 differs from the published 1.1. -/
theorem heartbeat_response_correct_witness :
    ∃ resp : HeartbeatResp,
      (heartbeatController stateW "1.1" "Bearer tok" reqW "10.0.0.1" 100).result = .ok resp ∧
      resp.agent_id = agentW.id ∧
      resp.name = agentW.name ∧
      (resp.need_update = true ↔ ("1.1" : String) ≠ "" ∧ reqW.version ≠ "" ∧ reqW.version ≠ "1.1") ∧
      resp.force_update = agentW.forceUpdate ∧
      resp.latest_version = "1.1" :=
  heartbeat_response_correct stateW "1.1" "Bearer tok" reqW "10.0.0.1" 100 agentW
    (by decide) (by decide) (by decide)

lemma exists_id_replaceById {agents : List Agent} {id : Nat} {a' : Agent}
    (h : ∃ a ∈ agents, a.id = id) (hid : a'.id = id) :
    ∃ b ∈ replaceById agents id a', b.id = id := by
  obtain ⟨a, ha, haid⟩ := h
  refine ⟨a', ?_, hid⟩
  have := List.mem_map_of_mem (fun x => if x.id = id then a' else x) ha
  simpa [replaceById, haid] using this

lemma findById_clearForceUpdateSvc {agents : List Agent} {id : Nat} {a' : Agent}
    (h : ∃ a ∈ agents, a.id = id) (hid : a'.id = id)
    (nid : Nat) :
    findById (clearForceUpdateSvc ⟨replaceById agents id a', nid⟩ id).agents id
      = some { a' with forceUpdate := false } := by
  have h1 : findById (replaceById agents id a') id = some a' :=
    findById_replaceById h hid
  have h2 : ∃ b ∈ replaceById agents id a', b.id = id := exists_id_replaceById h hid
  simp only [clearForceUpdateSvc, h1]
  have h3 : replaceById (replaceById agents id a') id ({ a' with forceUpdate := false })
      = replaceById (replaceById agents id a') id ({ a' with forceUpdate := false }) := rfl
  exact findById_replaceById h2 hid

lemma findById_state_after {s : RegState} {a : Agent} (a1 : Agent) (nid : Nat)
    (doClear : Bool)
    (hmem : ∃ b ∈ s.agents, b.id = a.id) (hid : a1.id = a.id) :
    ∃ a'', findById
        (if doClear then
          clearForceUpdateSvc ⟨replaceById s.agents a.id a1, nid⟩ a.id
        else
          ⟨replaceById s.agents a.id a1, nid⟩).agents a.id = some a'' ∧
      a''.forceUpdate = (a1.forceUpdate && !doClear) := by
  cases doClear with
  | false =>
    refine ⟨a1, ?_, by simp⟩
    simpa using findById_replaceById hmem hid
  | true =>
    refine ⟨{ a1 with forceUpdate := false }, ?_, by simp⟩
    simpa using findById_clearForceUpdateSvc hmem hid nid

/-- C4: a successful Heartbeat invokes ClearForceUpdate exactly when both
the agent's force-update flag and the computed needUpdate are true; the
response's `force_update` field always reflects the flag's value before any
clearing; and the stored flag after the call equals
`forceUpdate AND (NOT needUpdate)` — in particular, when needUpdate is false
the flag is left set. -/
theorem heartbeat_forceUpdate_consumed (s : RegState) (latest header : String)
    (req : HeartbeatReq) (ip : String) (now : Nat) (a : Agent)
    (htok : ¬ getAgentToken header = "")
    (hfind : getByToken s.agents (getAgentToken header) = some a)
    (hen : a.enabled = true) :
    (heartbeatController s latest header req ip now).clearedForceUpdate
      = (a.forceUpdate && (latest ≠ "" && req.version ≠ "" && req.version ≠ latest)) ∧
    (∀ resp, (heartbeatController s latest header req ip now).result = .ok resp →
      resp.force_update = a.forceUpdate) ∧
    (∃ a'', findById (heartbeatController s latest header req ip now).state.agents a.id
        = some a'' ∧
      a''.forceUpdate
        = (a.forceUpdate && !(latest ≠ "" && req.version ≠ "" && req.version ≠ latest))) := by
  have hmem : ∃ b ∈ s.agents, b.id = a.id := ⟨a, (getByToken_mem hfind).1, rfl⟩
  rw [heartbeatController_ok htok hfind hen]
  refine ⟨rfl, ?_, ?_⟩
  · intro resp h
    cases h
    rfl
  · obtain ⟨a'', hfind'', hflag⟩ := findById_state_after
      (heartbeatUpdate a now ip req.version req.buildTime req.hostname req.os req.arch)
      s.nextId
      (a.forceUpdate && (latest ≠ "" && req.version ≠ "" && req.version ≠ latest))
      hmem
      (heartbeatUpdate_id a now ip req.version req.buildTime req.hostname req.os req.arch)
    refine ⟨a'', hfind'', ?_⟩
    rw [hflag]
    have hbool : ∀ u x : Bool, (u && !(u && x)) = (u && !x) := by decide
    simpa using hbool a.forceUpdate
      (latest ≠ "" && req.version ≠ "" && req.version ≠ latest)

/-- Witness for C4: agent with force-update set and an update pending (1.0
reported, 1.1 published) — the flag is consumed. -/
theorem heartbeat_forceUpdate_consumed_witness :
    (heartbeatController ⟨[{ agentW with forceUpdate := true }], 2⟩
        "1.1" "Bearer tok" reqW "10.0.0.1" 100).clearedForceUpdate
      = ({ agentW with forceUpdate := true }.forceUpdate
          && (("1.1" : String) ≠ "" && reqW.version ≠ "" && reqW.version ≠ "1.1")) ∧
    (⟨1, "w1", true, true, "1.1"⟩ : HeartbeatResp).force_update
      = { agentW with forceUpdate := true }.forceUpdate ∧
    (∃ a'', findById (heartbeatController ⟨[{ agentW with forceUpdate := true }], 2⟩
        "1.1" "Bearer tok" reqW "10.0.0.1" 100).state.agents
        { agentW with forceUpdate := true }.id = some a'' ∧
      a''.forceUpdate
        = ({ agentW with forceUpdate := true }.forceUpdate
            && !(("1.1" : String) ≠ "" && reqW.version ≠ "" && reqW.version ≠ "1.1"))) :=
  ⟨(heartbeat_forceUpdate_consumed ⟨[{ agentW with forceUpdate := true }], 2⟩
      "1.1" "Bearer tok" reqW "10.0.0.1" 100 { agentW with forceUpdate := true }
      (by decide) (by decide) (by decide)).1,
   (heartbeat_forceUpdate_consumed ⟨[{ agentW with forceUpdate := true }], 2⟩
      "1.1" "Bearer tok" reqW "10.0.0.1" 100 { agentW with forceUpdate := true }
      (by decide) (by decide) (by decide)).2.1 ⟨1, "w1", true, true, "1.1"⟩ (by decide),
   (heartbeat_forceUpdate_consumed ⟨[{ agentW with forceUpdate := true }], 2⟩
      "1.1" "Bearer tok" reqW "10.0.0.1" 100 { agentW with forceUpdate := true }
      (by decide) (by decide) (by decide)).2.2⟩

lemma stamp_eq {r1 r2 : AgentTaskResult}
    (h : { r1 with agentID := 0 } = { r2 with agentID := 0 }) (x : Nat) :
    { r1 with agentID := x } = { r2 with agentID := x } := by
  cases r1
  cases r2
  simp only [AgentTaskResult.mk.injEq] at h ⊢
  tauto

/-- C5: the persisted execution result carries the agent id resolved from
the bearer token — two ReportResult requests identical except for the
payload's `agent_id` field produce identical outcomes, and on success the
appended ledger row has `agentID` equal to the authenticated agent's id. -/
theorem reportResult_stamps_identity (s : RegState) (ledger : List AgentTaskResult)
    (header : String) (r1 r2 : AgentTaskResult)
    (hsame : { r1 with agentID := 0 } = { r2 with agentID := 0 }) :
    reportResultController s ledger header (some r1)
      = reportResultController s ledger header (some r2) ∧
    (∀ a, ¬ getAgentToken header = "" →
      getByToken s.agents (getAgentToken header) = some a →
      a.enabled = true →
      reportResultController s ledger header (some r1)
        = (.ok (), ledger ++ [{ r1 with agentID := a.id }])) := by
  constructor
  · unfold reportResultController
    by_cases h0 : getAgentToken header = ""
    · simp [h0]
    · simp only [h0, if_neg, ite_false]
      cases hfind : getByToken s.agents (getAgentToken header) with
      | none => rfl
      | some a =>
        by_cases hen : a.enabled = true
        · simp [hen, stamp_eq hsame a.id]
        · simp [Bool.of_not_eq_true hen]
  · intro a h0 hfind hen
    simp [reportResultController, h0, hfind, hen]

/-- Witness for C5: two payloads claiming agent ids 99 and 42 produce the
same stored row, stamped with the authenticated agent's id 1. -/
theorem reportResult_stamps_identity_witness :
    reportResultController stateW [] "Bearer tok" (some resultW)
      = reportResultController stateW [] "Bearer tok" (some { resultW with agentID := 42 }) ∧
    reportResultController stateW [] "Bearer tok" (some resultW)
      = (.ok (), [] ++ [{ resultW with agentID := agentW.id }]) :=
  ⟨(reportResult_stamps_identity stateW [] "Bearer tok" resultW
      { resultW with agentID := 42 } (by decide)).1,
   (reportResult_stamps_identity stateW [] "Bearer tok" resultW
      { resultW with agentID := 42 } (by decide)).2 agentW
      (by decide) (by decide) (by decide)⟩

/-- C6: CheckStatus fails with NotFound when no agent matches the (name, ip)
pair; on a match it returns the agent's id and current status, and includes
the token exactly when the status is not pending (assuming the registry
invariant for the matched agent). -/
theorem checkStatus_correct (s : RegState) (name ip : String) (now : Nat) :
    (s.agents.find? (fun a => a.name == name && a.ip == ip) = none →
      checkStatusController s name ip now = (.error .notFound, s)) ∧
    (∀ a, s.agents.find? (fun a => a.name == name && a.ip == ip) = some a →
      (a.token = "" ↔ a.status = "pending") →
      ∃ resp, (checkStatusController s name ip now).1 = .ok resp ∧
        resp.agent_id = a.id ∧
        resp.status = a.status ∧
        resp.token = (if ¬ a.status = "pending" then some a.token else none)) := by
  constructor
  · intro h
    simp [checkStatusController, checkPendingAgent, h]
  · intro a hfind hinv
    simp only [checkStatusController, checkPendingAgent, hfind]
    refine ⟨_, rfl, rfl, rfl, ?_⟩
    by_cases hp : a.status = "pending"
    · have htok : a.token = "" := hinv.mpr hp
      simp [hp, htok]
    · have htok : ¬ a.token = "" := fun h => hp (hinv.mp h)
      simp [hp, htok]

/-- Witness for C6: the approved agent `agentW` is matched by (name, ip) and
its token is included because its status is online. -/
theorem checkStatus_correct_witness :
    (∃ resp, (checkStatusController stateW "w1" "10.0.0.1" 55).1 = .ok resp ∧
      resp.agent_id = agentW.id ∧
      resp.status = agentW.status ∧
      resp.token = (if ¬ agentW.status = "pending" then some agentW.token else none)) ∧
    checkStatusController ⟨[], 1⟩ "nobody" "1.2.3.4" 55 = (.error .notFound, ⟨[], 1⟩) :=
  ⟨(checkStatus_correct stateW "w1" "10.0.0.1" 55).2 agentW (by decide) (by decide),
   (checkStatus_correct ⟨[], 1⟩ "nobody" "1.2.3.4" 55).1 (by decide)⟩

/-- C2 (amended): operations bound to a bearer token resolve the token
first.  GetTasks and ReportResult fail with Unauthorized on a missing or
unknown token and with Forbidden on a disabled agent; `Heartbeat` fails with
Unauthorized on a missing or unknown token, but the controller maps every
`agentService.Heartbeat` error — including the disabled-agent case — to
Unauthorized (line 210 of `agent_controller.go`), so a disabled agent's
heartbeat also answers Unauthorized.  In every failure case the registry and
the ledger are left unchanged; in particular a Heartbeat with an unknown
token creates no record and mutates no existing record. -/
theorem gateway_token_resolution :
    (∀ s header, getAgentToken header = "" →
      getTasksController s header = .error .unauthorized) ∧
    (∀ s header, ¬ getAgentToken header = "" →
      getByToken s.agents (getAgentToken header) = none →
      getTasksController s header = .error .unauthorized) ∧
    (∀ s header a, ¬ getAgentToken header = "" →
      getByToken s.agents (getAgentToken header) = some a →
      a.enabled = false →
      getTasksController s header = .error .forbidden) ∧
    (∀ s ledger header body, getAgentToken header = "" →
      reportResultController s ledger header body = (.error .unauthorized, ledger)) ∧
    (∀ s ledger header body, ¬ getAgentToken header = "" →
      getByToken s.agents (getAgentToken header) = none →
      reportResultController s ledger header body = (.error .unauthorized, ledger)) ∧
    (∀ s ledger header body a, ¬ getAgentToken header = "" →
      getByToken s.agents (getAgentToken header) = some a →
      a.enabled = false →
      reportResultController s ledger header body = (.error .forbidden, ledger)) ∧
    (∀ s latest header req ip now, getAgentToken header = "" →
      heartbeatController s latest header req ip now = ⟨.error .unauthorized, s, false⟩) ∧
    (∀ s latest header req ip now, ¬ getAgentToken header = "" →
      getByToken s.agents (getAgentToken header) = none →
      heartbeatController s latest header req ip now = ⟨.error .unauthorized, s, false⟩) ∧
    (∀ s latest header req ip now a, ¬ getAgentToken header = "" →
      getByToken s.agents (getAgentToken header) = some a →
      a.enabled = false →
      heartbeatController s latest header req ip now = ⟨.error .unauthorized, s, false⟩) := by
  refine ⟨?_, ?_, ?_, ?_, ?_, ?_, ?_, ?_, ?_⟩
  · intro s header h
    simp [getTasksController, h]
  · intro s header h hfind
    simp [getTasksController, h, hfind]
  · intro s header a h hfind hdis
    simp [getTasksController, h, hfind, hdis]
  · intro s ledger header body h
    simp [reportResultController, h]
  · intro s ledger header body h hfind
    simp [reportResultController, h, hfind]
  · intro s ledger header body a h hfind hdis
    simp [reportResultController, h, hfind, hdis]
  · intro s latest header req ip now h
    simp [heartbeatController, h]
  · intro s latest header req ip now h hfind
    simp [heartbeatController, serviceHeartbeat, h, hfind]
  · intro s latest header req ip now a h hfind hdis
    simp [heartbeatController, serviceHeartbeat, h, hfind, hdis]

/-- Counterexample to C2 as stated: a bearer token resolving to a disabled
agent makes Heartbeat fail with Unauthorized, not Forbidden. -/
theorem heartbeat_disabled_not_forbidden :
    (heartbeatController stateDis "1.1" "Bearer distok" reqW "10.0.0.1" 100).result
      = .error .unauthorized ∧
    ¬ (heartbeatController stateDis "1.1" "Bearer distok" reqW "10.0.0.1" 100).result
      = .error .forbidden := by
  decide

/-- Witness for C2 at concrete inputs: disabled agent gets Forbidden on
GetTasks; unknown token gets Unauthorized on Heartbeat with unchanged
state. -/
theorem gateway_token_resolution_witness :
    getTasksController stateDis "Bearer distok" = .error .forbidden ∧
    reportResultController stateDis [] "Bearer distok" (some resultW)
      = (.error .forbidden, []) ∧
    heartbeatController stateW "1.1" "Bearer nosuch" reqW "10.0.0.1" 100
      = ⟨.error .unauthorized, stateW, false⟩ :=
  ⟨gateway_token_resolution.2.2.1 stateDis "Bearer distok" agentDis
      (by decide) (by decide) (by decide),
   gateway_token_resolution.2.2.2.2.2.1 stateDis [] "Bearer distok" (some resultW) agentDis
      (by decide) (by decide) (by decide),
   gateway_token_resolution.2.2.2.2.2.2.2.1 stateW "1.1" "Bearer nosuch" reqW "10.0.0.1" 100
      (by decide) (by decide)⟩

lemma findById_state_fields {s : RegState} {a : Agent} (a1 : Agent) (nid : Nat)
    (doClear : Bool)
    (hmem : ∃ b ∈ s.agents, b.id = a.id) (hid : a1.id = a.id) :
    ∃ a'', findById
        (if doClear then
          clearForceUpdateSvc ⟨replaceById s.agents a.id a1, nid⟩ a.id
        else
          ⟨replaceById s.agents a.id a1, nid⟩).agents a.id = some a'' ∧
      a''.id = a1.id ∧ a''.name = a1.name ∧ a''.token = a1.token ∧
      a''.status = a1.status ∧ a''.lastSeen = a1.lastSeen ∧ a''.ip = a1.ip ∧
      a''.version = a1.version ∧ a''.buildTime = a1.buildTime ∧
      a''.hostname = a1.hostname ∧ a''.os = a1.os ∧ a''.arch = a1.arch ∧
      a''.enabled = a1.enabled := by
  cases doClear with
  | false =>
    refine ⟨a1, ?_, rfl, rfl, rfl, rfl, rfl, rfl, rfl, rfl, rfl, rfl, rfl, rfl⟩
    simpa using findById_replaceById hmem hid
  | true =>
    refine ⟨{ a1 with forceUpdate := false }, ?_,
      rfl, rfl, rfl, rfl, rfl, rfl, rfl, rfl, rfl, rfl, rfl, rfl⟩
    simpa using findById_clearForceUpdateSvc hmem hid nid

/-- C9: a successful Heartbeat overwrites each of version, buildTime,
hostname, os, arch only when the incoming value is non-empty (an empty
incoming value leaves the stored value untouched), while status is set to
online, last-seen to now, and ip to the caller's ip unconditionally. -/
theorem heartbeat_partial_update (s : RegState) (latest header : String)
    (req : HeartbeatReq) (ip : String) (now : Nat) (a : Agent)
    (htok : ¬ getAgentToken header = "")
    (hfind : getByToken s.agents (getAgentToken header) = some a)
    (hen : a.enabled = true) :
    ∃ a'', findById (heartbeatController s latest header req ip now).state.agents a.id
        = some a'' ∧
      a''.status = "online" ∧
      a''.lastSeen = some now ∧
      a''.ip = ip ∧
      a''.version = (if req.version = "" then a.version else req.version) ∧
      a''.buildTime = (if req.buildTime = "" then a.buildTime else req.buildTime) ∧
      a''.hostname = (if req.hostname = "" then a.hostname else req.hostname) ∧
      a''.os = (if req.os = "" then a.os else req.os) ∧
      a''.arch = (if req.arch = "" then a.arch else req.arch) ∧
      a''.id = a.id ∧ a''.name = a.name ∧ a''.token = a.token ∧
      a''.enabled = a.enabled := by
  have hmem : ∃ b ∈ s.agents, b.id = a.id := ⟨a, (getByToken_mem hfind).1, rfl⟩
  rw [heartbeatController_ok htok hfind hen]
  obtain ⟨a'', hf, h1, h2, h3, h4, h5, h6, h7, h8, h9, h10, h11, h12⟩ :=
    findById_state_fields
      (heartbeatUpdate a now ip req.version req.buildTime req.hostname req.os req.arch)
      s.nextId
      (a.forceUpdate && (latest ≠ "" && req.version ≠ "" && req.version ≠ latest))
      hmem
      (heartbeatUpdate_id a now ip req.version req.buildTime req.hostname req.os req.arch)
  exact ⟨a'', hf, h4, h5, h6, h7, h8, h9, h10, h11, h1, h2, h3, h12⟩

/-- Witness for C9: heartbeat with all optional fields empty preserves the
stored version/buildTime/hostname/os/arch of `agentW`. -/
theorem heartbeat_partial_update_witness :
    ∃ a'', findById (heartbeatController stateW "1.1" "Bearer tok" reqEmpty
        "10.9.9.9" 777).state.agents agentW.id = some a'' ∧
      a''.status = "online" ∧
      a''.lastSeen = some 777 ∧
      a''.ip = "10.9.9.9" ∧
      a''.version = (if reqEmpty.version = "" then agentW.version else reqEmpty.version) ∧
      a''.buildTime = (if reqEmpty.buildTime = "" then agentW.buildTime else reqEmpty.buildTime) ∧
      a''.hostname = (if reqEmpty.hostname = "" then agentW.hostname else reqEmpty.hostname) ∧
      a''.os = (if reqEmpty.os = "" then agentW.os else reqEmpty.os) ∧
      a''.arch = (if reqEmpty.arch = "" then agentW.arch else reqEmpty.arch) ∧
      a''.id = agentW.id ∧ a''.name = agentW.name ∧ a''.token = agentW.token ∧
      a''.enabled = agentW.enabled :=
  heartbeat_partial_update stateW "1.1" "Bearer tok" reqEmpty "10.9.9.9" 777 agentW
    (by decide) (by decide) (by decide)

/-- C7: one sweep of MarkStaleOffline transitions to offline exactly the
agents that are online with a last-seen timestamp older than the 2-minute
window; every pending or offline agent, and every online agent seen within
the window (or with no last-seen timestamp), is returned entirely
unchanged, and no row is added or removed. -/
theorem markStaleOffline_correct (now : Nat) (agents : List Agent) :
    (markStaleOffline now agents).length = agents.length ∧
    ∀ i : Nat, (markStaleOffline now agents)[i]? =
      (agents[i]?).map (fun a =>
        if a.status = "online" && a.lastSeen.any (fun t => t + 120 < now) then
          { a with status := "offline" }
        else a) := by
  induction agents with
  | nil => exact ⟨rfl, fun i => by cases i <;> rfl⟩
  | cons a rest ih =>
    refine ⟨?_, ?_⟩
    · simpa [markStaleOffline] using ih.1
    · intro i
      cases i with
      | zero =>
        by_cases hs : a.status = "online"
        · cases hls : a.lastSeen with
          | none => simp [markStaleOffline, hs, hls]
          | some t =>
            by_cases ht : t + 120 < now
            · simp [markStaleOffline, hs, hls, ht]
            · simp [markStaleOffline, hs, hls, ht]
        · simp [markStaleOffline, hs]
      | succ j =>
        simpa [markStaleOffline] using ih.2 j

/-! ### The registry invariant under operation traces -/

lemma forall_mem_replaceById {P : Agent → Prop} {l : List Agent} {id : Nat}
    {a' : Agent} (h : ∀ b ∈ l, P b) (ha' : P a') :
    ∀ b ∈ replaceById l id a', P b := by
  intro b hb
  rcases List.mem_map.mp hb with ⟨c, hc, hceq⟩
  by_cases hcid : c.id = id
  · rw [← hceq, if_pos hcid]
    exact ha'
  · rw [← hceq, if_neg hcid]
    exact h c hc

lemma inv_clearForceUpdateSvc {s : RegState} {id : Nat} (h : agentInvariant s) :
    agentInvariant (clearForceUpdateSvc s id) := by
  unfold clearForceUpdateSvc
  cases hf : findById s.agents id with
  | none => exact h
  | some b =>
    have hb : b ∈ s.agents := List.mem_of_find?_eq_some hf
    show ∀ c ∈ replaceById s.agents id ({ b with forceUpdate := false }),
      c.token = "" ↔ c.status = "pending"
    exact forall_mem_replaceById h (h b hb)

lemma invariant_applyOp {s : RegState} {op : Op} (h : agentInvariant s)
    (hwf : wfOp op = true) (hrs : regenSafe s op = true) :
    agentInvariant (applyOp s op) := by
  have hop : ¬ ("online" : String) = "pending" := by decide
  cases op with
  | register name hostname version ip now =>
    show agentInvariant (serviceRegister s name hostname version ip now).2
    unfold serviceRegister
    cases hf : s.agents.find? (fun a => a.name == name && a.status == "pending") with
    | some a =>
      have ha : a ∈ s.agents := List.mem_of_find?_eq_some hf
      show ∀ b ∈ replaceById s.agents a.id
          ({ a with hostname := hostname, version := version, ip := ip, lastSeen := some now }),
        b.token = "" ↔ b.status = "pending"
      exact forall_mem_replaceById h (h a ha)
    | none =>
      dsimp only
      intro b hb
      rcases List.mem_append.mp hb with hb1 | hb2
      · exact h b hb1
      · have hbeq : b = ⟨s.nextId, name, "", "", "pending", some now, ip,
            version, "", hostname, "", "", false, true⟩ := by simpa using hb2
        subst hbeq
        simp
  | approve id tok now =>
    have htok : tok ≠ "" := by simpa [wfOp] using hwf
    show agentInvariant
      (match serviceApprove s id tok now with
       | .ok (_, s') => s'
       | .error _ => s)
    unfold serviceApprove
    cases hf : findById s.agents id with
    | none => exact h
    | some a =>
      dsimp only
      by_cases hp : a.status = "pending"
      · rw [if_pos hp]
        dsimp only
        intro b hb
        refine forall_mem_replaceById h ?_ b hb
        constructor
        · intro he
          exact absurd he htok
        · intro hst
          exact absurd hst hop
      · rw [if_neg hp]
        exact h
  | reject id =>
    show agentInvariant (serviceReject s id)
    intro b hb
    have hb' : b ∈ s.agents := List.mem_of_mem_filter hb
    exact h b hb'
  | update id name descr enabled =>
    show agentInvariant (serviceUpdate s id name descr enabled)
    unfold serviceUpdate
    cases hf : findById s.agents id with
    | none => exact h
    | some a =>
      have ha : a ∈ s.agents := List.mem_of_find?_eq_some hf
      show ∀ b ∈ replaceById s.agents id
          ({ a with name := name, description := descr, enabled := enabled }),
        b.token = "" ↔ b.status = "pending"
      exact forall_mem_replaceById h (h a ha)
  | heartbeat header req ip latest now =>
    show agentInvariant (heartbeatController s latest header req ip now).state
    by_cases htok : getAgentToken header = ""
    · simpa [heartbeatController, htok] using h
    · cases hfind : getByToken s.agents (getAgentToken header) with
      | none =>
        simpa [heartbeatController, serviceHeartbeat, htok, hfind] using h
      | some a =>
        by_cases hen : a.enabled = true
        · rw [heartbeatController_ok htok hfind hen]
          have htok2 : ¬ a.token = "" := by
            rw [(getByToken_mem hfind).2]
            exact htok
          have hinv' : agentInvariant
              ⟨replaceById s.agents a.id
                 (heartbeatUpdate a now ip req.version req.buildTime req.hostname req.os req.arch),
               s.nextId⟩ := by
            intro b hb
            refine forall_mem_replaceById h ?_ b hb
            constructor
            · intro he
              exact absurd he htok2
            · intro hst
              exact absurd hst hop
          cases hdc : (a.forceUpdate
              && (latest ≠ "" && req.version ≠ "" && req.version ≠ latest)) with
          | true => exact inv_clearForceUpdateSvc hinv'
          | false => exact hinv'
        · have hen' : a.enabled = false := by simpa using hen
          simpa [heartbeatController, serviceHeartbeat, htok, hfind, hen'] using h
  | redeem tok name hostname version ip now =>
    have htok : tok ≠ "" := by simpa [wfOp] using hwf
    show agentInvariant (serviceRedeem s tok name hostname version ip now).2
    intro b hb
    rcases List.mem_append.mp hb with hb1 | hb2
    · exact h b hb1
    · have hbeq : b = ⟨s.nextId, name, tok, "", "online", some now, ip,
          version, "", hostname, "", "", false, true⟩ := by simpa using hb2
      subst hbeq
      constructor
      · intro he
        exact absurd he htok
      · intro hst
        exact absurd hst hop
  | regenerateToken id tok =>
    have htok : tok ≠ "" := by simpa [wfOp] using hwf
    show agentInvariant
      (match serviceRegenerateToken s id tok with
       | .ok s' => s'
       | .error _ => s)
    unfold serviceRegenerateToken
    cases hf : findById s.agents id with
    | none => exact h
    | some a =>
      have ha : a ∈ s.agents := List.mem_of_find?_eq_some hf
      have haid : a.id = id := by simpa using List.find?_some hf
      have hnp : ¬ a.status = "pending" := by
        have hall := hrs
        simp only [regenSafe, List.all_eq_true] at hall
        have hone := hall a ha
        simp only [Bool.or_eq_true, Bool.not_eq_true', beq_eq_false_iff_ne] at hone
        rcases hone with h1 | h2
        · exact absurd haid h1
        · exact h2
      dsimp only
      intro b hb
      refine forall_mem_replaceById h ?_ b hb
      constructor
      · intro he
        exact absurd he htok
      · intro hst
        exact absurd hst hnp

/-- C1 (amended): the registry invariant "token is empty iff status is
pending" holds in every state reachable by Register, Approve, Reject,
Update, Heartbeat, registration-code redemption and RegenerateToken with
non-empty generated tokens, provided RegenerateToken is never applied to an
agent that is pending at that moment (without this proviso the invariant
fails, see the counterexample). -/
theorem agent_invariant_reachable (s : RegState) (ops : List Op)
    (h0 : agentInvariant s) (hsafe : safeTrace s ops = true) :
    agentInvariant (applyOps s ops) := by
  induction ops generalizing s with
  | nil => exact h0
  | cons op ops ih =>
    simp only [safeTrace, Bool.and_eq_true] at hsafe
    obtain ⟨⟨hwf, hrs⟩, hrest⟩ := hsafe
    exact ih (applyOp s op) (invariant_applyOp h0 hwf hrs) hrest

/-- Counterexample to C1 as stated: registering a new agent (pending, empty
token) and then invoking RegenerateToken on it — both operations from the
claim's list, with a non-empty generated token — yields a reachable agent
record that is pending yet holds a non-empty token. -/
theorem agent_invariant_counterexample :
    (∀ op ∈ ([.register "w1" "h" "1.0" "10.0.0.1" 0,
              .regenerateToken 1 "a1b2c3d4"] : List Op), wfOp op = true) ∧
    ¬ agentInvariant (applyOps RegState.init
        [.register "w1" "h" "1.0" "10.0.0.1" 0,
         .regenerateToken 1 "a1b2c3d4"]) := by
  decide

/-- Witness for C1 (amended) on a concrete safe trace: register, approve,
heartbeat, then regenerate the token of the (now online) agent. -/
theorem agent_invariant_reachable_witness :
    agentInvariant (applyOps RegState.init
      [.register "w1" "h" "1.0" "10.0.0.1" 0,
       .approve 1 "aabbcc" 5,
       .heartbeat "Bearer aabbcc" reqW "10.0.0.1" "1.1" 10,
       .regenerateToken 1 "ddeeff"]) :=
  agent_invariant_reachable RegState.init
    [.register "w1" "h" "1.0" "10.0.0.1" 0,
     .approve 1 "aabbcc" 5,
     .heartbeat "Bearer aabbcc" reqW "10.0.0.1" "1.1" 10,
     .regenerateToken 1 "ddeeff"]
    (by decide) (by decide)

/-! ### Lemmas for count-based retention -/

lemma countP_lt_eq_index {S : List Nat} (hp : S.Pairwise (fun a b => b < a))
    {i : Nat} (hi : i < S.length) {v : Nat} (hv : S.get ⟨i, hi⟩ = v) :
    S.countP (fun y => decide (v < y)) = i := by
  induction S generalizing i with
  | nil => simp at hi
  | cons x rest ih =>
    have hx : ∀ y ∈ rest, y < x := (List.pairwise_cons.mp hp).1
    cases i with
    | zero =>
      have hv0 : x = v := hv
      rw [List.countP_cons]
      have hrest : rest.countP (fun y => decide (v < y)) = 0 := by
        apply List.countP_eq_zero.mpr
        intro y hy
        simp only [decide_eq_true_eq]
        rw [← hv0]
        exact not_lt_of_gt (hx y hy)
      rw [hrest]
      simp [← hv0]
    | succ j =>
      have hj : j < rest.length := Nat.succ_lt_succ_iff.mp hi
      have hvj : rest.get ⟨j, hj⟩ = v := hv
      have hvx : v < x := by
        rw [← hvj]
        exact hx _ (List.get_mem rest j hj)
      rw [List.countP_cons]
      have ihj := ih (List.Pairwise.of_cons hp) hj hvj
      simp [ihj, hvx]

lemma countP_le_eq_index {S : List Nat} (hp : S.Pairwise (fun a b => b < a))
    {i : Nat} (hi : i < S.length) {v : Nat} (hv : S.get ⟨i, hi⟩ = v) :
    S.countP (fun y => decide (v ≤ y)) = i + 1 := by
  induction S generalizing i with
  | nil => simp at hi
  | cons x rest ih =>
    have hx : ∀ y ∈ rest, y < x := (List.pairwise_cons.mp hp).1
    cases i with
    | zero =>
      have hv0 : x = v := hv
      rw [List.countP_cons]
      have hrest : rest.countP (fun y => decide (v ≤ y)) = 0 := by
        apply List.countP_eq_zero.mpr
        intro y hy
        simp only [decide_eq_true_eq]
        rw [← hv0]
        exact not_le_of_gt (hx y hy)
      rw [hrest]
      simp [← hv0]
    | succ j =>
      have hj : j < rest.length := Nat.succ_lt_succ_iff.mp hi
      have hvj : rest.get ⟨j, hj⟩ = v := hv
      have hvx : v ≤ x := by
        rw [← hvj]
        exact le_of_lt (hx _ (List.get_mem rest j hj))
      rw [List.countP_cons]
      have ihj := ih (List.Pairwise.of_cons hp) hj hvj
      simp [ihj, hvx]

lemma getElem_le_getElem {S : List Nat} (hp : S.Pairwise (fun a b => b < a))
    {i j : Nat} (hi : i < S.length) (hj : j < S.length) (hij : i ≤ j) :
    S.get ⟨j, hj⟩ ≤ S.get ⟨i, hi⟩ := by
  rcases Nat.lt_or_ge i j with hlt | hge
  · exact le_of_lt (List.pairwise_iff_get.mp hp ⟨i, hi⟩ ⟨j, hj⟩ hlt)
  · have hIJ : i = j := le_antisymm hij hge
    subst hIJ
    exact le_refl _

lemma strict_desc_sort (l : List Nat) (hl : l.Nodup) :
    (l.insertionSort (fun a b => b ≤ a)).Pairwise (fun a b => b < a) := by
  have hsorted : (l.insertionSort (fun a b => b ≤ a)).Sorted (fun a b => b ≤ a) :=
    List.sorted_insertionSort _ l
  have hnodup : (l.insertionSort (fun a b => b ≤ a)).Nodup :=
    ((List.perm_insertionSort _ l).symm).nodup hl
  exact (List.Pairwise.and hsorted hnodup).imp
    (fun hab => lt_of_le_of_ne hab.1 (Ne.symm hab.2))

/-- C8: for a count-based retention policy with keep = N > 0 over records
with pairwise-distinct ids, ApplyRetention keeps exactly the records that
have fewer than N records with a larger id (the N most recent by descending
id, since ids increase in creation order) and deletes the rest, and running
it a second time deletes nothing. -/
theorem applyRetentionCount_correct (keep : Nat) (ids : List Nat)
    (hk : 0 < keep) (hnd : ids.Nodup) :
    (∀ x, x ∈ applyRetentionCount keep ids ↔
      x ∈ ids ∧ ids.countP (fun y => decide (x < y)) < keep) ∧
    applyRetentionCount keep (applyRetentionCount keep ids) = applyRetentionCount keep ids := by
  have hk0 : ¬ keep = 0 := Nat.pos_iff_ne_zero.mp hk
  have hperm := List.perm_insertionSort (fun a b : Nat => b ≤ a) ids
  have hpS := strict_desc_sort ids hnd
  cases hget : (ids.insertionSort (fun a b => b ≤ a))[keep - 1]? with
  | none =>
    have hrun : applyRetentionCount keep ids = ids := by
      unfold applyRetentionCount
      rw [if_neg hk0]
      dsimp only
      rw [List.get?_eq_getElem?, hget]
    have hlenle : ids.length ≤ keep - 1 := by
      have hl := List.getElem?_eq_none_iff.mp hget
      rwa [List.length_insertionSort] at hl
    refine ⟨?_, by rw [hrun, hrun]⟩
    intro x
    rw [hrun]
    constructor
    · intro hx
      refine ⟨hx, ?_⟩
      obtain ⟨i, hxi⟩ := List.mem_iff_get.mp (hperm.mem_iff.mpr hx)
      have hcnt : ids.countP (fun y => decide (x < y)) = i.1 := by
        rw [← hperm.countP_eq]
        exact countP_lt_eq_index hpS i.2 hxi
      rw [hcnt]
      have hlenS : (List.insertionSort (fun a b : Nat => b ≤ a) ids).length = ids.length :=
        List.length_insertionSort _ _
      have hiS := i.2
      omega
    · rintro ⟨hx, _⟩
      exact hx
  | some nth =>
    obtain ⟨hklen, hnthval⟩ := List.getElem?_eq_some.mp hget
    have hnthget : (ids.insertionSort (fun a b => b ≤ a)).get ⟨keep - 1, hklen⟩ = nth := hnthval
    have hrun : applyRetentionCount keep ids = ids.filter (fun id => ¬ id < nth) := by
      unfold applyRetentionCount
      rw [if_neg hk0]
      dsimp only
      rw [List.get?_eq_getElem?, hget]
    have hmain : ∀ x ∈ ids, (nth ≤ x ↔ ids.countP (fun y => decide (x < y)) < keep) := by
      intro x hx
      obtain ⟨i, hxi⟩ := List.mem_iff_get.mp (hperm.mem_iff.mpr hx)
      have hcnt : ids.countP (fun y => decide (x < y)) = i.1 := by
        rw [← hperm.countP_eq]
        exact countP_lt_eq_index hpS i.2 hxi
      rw [hcnt]
      constructor
      · intro hle
        by_contra hik
        push_neg at hik
        have hki : keep - 1 < i.1 := by omega
        have hlt : (ids.insertionSort (fun a b => b ≤ a)).get i
            < (ids.insertionSort (fun a b => b ≤ a)).get ⟨keep - 1, hklen⟩ :=
          List.pairwise_iff_get.mp hpS ⟨keep - 1, hklen⟩ i hki
        rw [hxi, hnthget] at hlt
        omega
      · intro hik
        have hik' : i.1 ≤ keep - 1 := by omega
        have hle := getElem_le_getElem hpS i.2 hklen hik'
        rw [hxi, hnthget] at hle
        exact hle
    constructor
    · intro x
      rw [hrun, List.mem_filter]
      constructor
      · rintro ⟨hx, hcond⟩
        refine ⟨hx, ?_⟩
        have hnle : nth ≤ x := by
          simpa [Nat.not_lt] using hcond
        exact (hmain x hx).mp hnle
      · rintro ⟨hx, hcnt⟩
        refine ⟨hx, ?_⟩
        have hnle := (hmain x hx).mpr hcnt
        simpa [Nat.not_lt] using hnle
    · -- idempotence: the filtered list has exactly `keep` elements, its
      -- (keep-1)-th most recent id is again `nth`, so the second filter
      -- removes nothing.
      have hRnd : (ids.filter (fun id => ¬ id < nth)).Nodup := hnd.filter _
      have hRlen : (ids.filter (fun id => ¬ id < nth)).length = keep := by
        have h1 : (ids.filter (fun id => ¬ id < nth)).length
            = ids.countP (fun id => decide (¬ id < nth)) :=
          (List.countP_eq_length_filter _ _).symm
        have h2 : ids.countP (fun id => decide (¬ id < nth))
            = ids.countP (fun y => decide (nth ≤ y)) := by
          apply List.countP_congr
          intro a _
          simp [Nat.not_lt]
        have h3 : ids.countP (fun y => decide (nth ≤ y)) = (keep - 1) + 1 := by
          rw [← hperm.countP_eq]
          exact countP_le_eq_index hpS hklen hnthget
        rw [h1, h2, h3]
        omega
      have hnthR : nth ∈ ids.filter (fun id => ¬ id < nth) := by
        rw [List.mem_filter]
        refine ⟨?_, by simp⟩
        have hmemS : nth ∈ ids.insertionSort (fun a b => b ≤ a) := by
          rw [← hnthget]
          exact List.get_mem _ _ _
        exact hperm.mem_iff.mp hmemS
      have hallR : ∀ x ∈ ids.filter (fun id => ¬ id < nth), nth ≤ x := by
        intro x hxR
        rw [List.mem_filter] at hxR
        simpa [Nat.not_lt] using hxR.2
      have hpermR := List.perm_insertionSort (fun a b : Nat => b ≤ a)
        (ids.filter (fun id => ¬ id < nth))
      have hpR := strict_desc_sort (ids.filter (fun id => ¬ id < nth)) hRnd
      have hklenR : keep - 1
          < ((ids.filter (fun id => ¬ id < nth)).insertionSort (fun a b => b ≤ a)).length := by
        rw [List.length_insertionSort, hRlen]
        omega
      have hminR : ((ids.filter (fun id => ¬ id < nth)).insertionSort
          (fun a b => b ≤ a)).get ⟨keep - 1, hklenR⟩ = nth := by
        obtain ⟨i, hxi⟩ := List.mem_iff_get.mp (hpermR.mem_iff.mpr hnthR)
        have hik : i.1 ≤ keep - 1 := by
          have hi' := i.2
          have hlenR' : ((ids.filter (fun id => ¬ id < nth)).insertionSort
              (fun a b => b ≤ a)).length = (ids.filter (fun id => ¬ id < nth)).length :=
            List.length_insertionSort _ _
          omega
        have h1 := getElem_le_getElem hpR i.2 hklenR hik
        rw [hxi] at h1
        have h2 : nth ≤ ((ids.filter (fun id => ¬ id < nth)).insertionSort
            (fun a b => b ≤ a)).get ⟨keep - 1, hklenR⟩ :=
          hallR _ (hpermR.mem_iff.mp (List.get_mem _ _ _))
        omega
      have hget2 : ((ids.filter (fun id => ¬ id < nth)).insertionSort
          (fun a b => b ≤ a))[keep - 1]? = some nth := by
        rw [List.getElem?_eq_getElem hklenR]
        exact congrArg some hminR
      have hrun2 : applyRetentionCount keep (ids.filter (fun id => ¬ id < nth))
          = (ids.filter (fun id => ¬ id < nth)).filter (fun id => ¬ id < nth) := by
        unfold applyRetentionCount
        rw [if_neg hk0]
        dsimp only
        rw [List.get?_eq_getElem?, hget2]
      rw [hrun, hrun2]
      apply List.filter_eq_self.mpr
      intro a ha
      have := hallR a ha
      simp [Nat.not_lt]
      omega

/-- Witness for C8 at the spec's own example: keep = 3 over five records
deletes exactly the two oldest ids and a second run removes nothing. -/
theorem applyRetentionCount_correct_witness :
    (4 ∈ applyRetentionCount 3 [1, 2, 3, 4, 5] ↔
      4 ∈ [1, 2, 3, 4, 5] ∧ List.countP (fun y => decide (4 < y)) [1, 2, 3, 4, 5] < 3) ∧
    applyRetentionCount 3 (applyRetentionCount 3 [1, 2, 3, 4, 5])
      = applyRetentionCount 3 [1, 2, 3, 4, 5] :=
  ⟨(applyRetentionCount_correct 3 [1, 2, 3, 4, 5] (by decide) (by decide)).1 4,
   (applyRetentionCount_correct 3 [1, 2, 3, 4, 5] (by decide) (by decide)).2⟩

end Baihu
